import Mathlib

/-!
Shallow embedding of the sync state machine of `src/workers/src/services/sync.ts`
(the first, buffering/deduplicating variant of `SyncService`) together with the
retry wrapper of the Luma API client (`fetchWithRetry` / `fetchWithAuth` in the
Luma service source).  Pure TypeScript functions become Lean functions; the
durable-object storage becomes explicit state passing; calls to the Google
Sheets sink become elements of an effect trace; thrown exceptions become a
Boolean success flag threaded through each operation.
-/

namespace SuiEvents

/-- Stage of the sync state machine (`SyncState.currentStage` in sync.ts). -/
inductive Stage where
  | events
  | details
  | guests
  | completed
deriving DecidableEq, Repr

/-- A guest entry coming back from the Luma API, restricted to the fields
`processEventGuests` reads when building a sheet row. -/
structure Guest where
  api_id : String
  user_name : String
  user_email : String
  user_first_name : Option String
  user_last_name : Option String
  approval_status : String
  checked_in_at : Option String
  check_in_qr_code : Option String
  created_at : String
  updated_at : String
deriving DecidableEq, Repr

/-- A sheet row (`any[]` in the source): an ordered list of cell strings. -/
abbrev Row := List String

/-- The guest id carried in column 0 of a guest row (`row[0]` in sync.ts). -/
def rowId (r : Row) : String := r.headD ""

/-- Row built for one guest entry by `processEventGuests` (sync.ts lines 290-302):
`[api_id, eventId, user_name, user_email, first||'', last||'', approval_status,
checked_in_at||'', check_in_qr_code||'', created_at, updated_at]`. -/
def guestToRow (eventId : String) (g : Guest) : Row :=
  [g.api_id, eventId, g.user_name, g.user_email,
   g.user_first_name.getD "", g.user_last_name.getD "",
   g.approval_status, g.checked_in_at.getD "", g.check_in_qr_code.getD "",
   g.created_at, g.updated_at]

/-- The per-event guest pagination cursor (`SyncState.currentEventGuests`). -/
structure CurrentEventGuests where
  eventId : String
  nextCursor : Option String
  hasMore : Bool
  processedCount : Nat
deriving DecidableEq, Repr

/-- The persisted `SyncState` aggregate of sync.ts (first variant).
`eventDetails` is the `{[eventId]: {name, processed}}` map, modelled as an
association list; `dateRange` is the optional `{after, before}` pair. -/
structure SyncState where
  lastSyncTime : Nat
  currentStage : Stage
  pendingEvents : List String
  failedEvents : List String
  lastProcessedIndex : Nat
  eventDetails : List (String × String × Bool)
  nextCursor : Option String
  hasMore : Bool
  dateRange : Option (Option String × Option String)
  currentEventGuests : Option CurrentEventGuests
  allGuestsData : List Row
  guestsSheetInitialized : Bool
deriving DecidableEq, Repr

/-- `BATCH_SIZE` constant of `SyncService`. -/
def BATCH_SIZE : Nat := 1

/-- `GUESTS_FLUSH_THRESHOLD` constant of `SyncService`. -/
def GUESTS_FLUSH_THRESHOLD : Nat := 500

/-- One call to `GoogleSheetsService.batchWriteToSheet(sheet, rows, append)`:
`append = false` is the clear-and-overwrite mode, `append = true` appends. -/
structure SinkOp where
  sheet : String
  rows : List Row
  append : Bool
deriving DecidableEq, Repr

/-- An observable effect of `flushGuestsBuffer`: either a `storage.put` of the
whole persisted state or an (attempted) sink write. -/
inductive Eff where
  | putState (st : SyncState)
  | sinkWrite (op : SinkOp)
deriving DecidableEq, Repr

/-- The sink writes contained in an effect trace. -/
def sinkOpsOfEffs : List Eff → List SinkOp
  | [] => []
  | Eff.sinkWrite op :: rest => op :: sinkOpsOfEffs rest
  | Eff.putState _ :: rest => sinkOpsOfEffs rest

/-- `flushGuestsBuffer` of sync.ts (lines 360-394).  `meanwhile` is the content
the persisted buffer holds when the catch handler re-reads the state
(`stateAfterError.allGuestsData`): rows buffered by interleaved work during the
awaited sink write; it is `[]` in a strictly sequential drive.  `writeOk` says
whether the `batchWriteToSheet` call succeeds.  Returns the final persisted
state, the trace of issued effects, and `false` when the error is rethrown. -/
def flushGuestsBufferM (st : SyncState) (meanwhile : List Row) (writeOk : Bool) :
    SyncState × List Eff × Bool :=
  let buffer := st.allGuestsData
  if buffer.isEmpty then (st, [], true)
  else
    let stCleared : SyncState := { st with allGuestsData := [] }
    let op : SinkOp := { sheet := "Guests", rows := buffer, append := st.guestsSheetInitialized }
    if writeOk then
      let stAfter : SyncState :=
        { stCleared with allGuestsData := meanwhile, guestsSheetInitialized := true }
      if st.guestsSheetInitialized then
        ({ stCleared with allGuestsData := meanwhile },
         [Eff.putState stCleared, Eff.sinkWrite op], true)
      else
        (stAfter, [Eff.putState stCleared, Eff.sinkWrite op, Eff.putState stAfter], true)
    else
      let stRestored : SyncState := { stCleared with allGuestsData := meanwhile ++ buffer }
      (stRestored, [Eff.putState stCleared, Eff.sinkWrite op, Eff.putState stRestored], false)

/-- `flushGuestsBuffer` as invoked inside the sequential drive loop, where no
rows are buffered while the sink write is in flight. -/
def flushGuestsBuffer (st : SyncState) (writeOk : Bool) : SyncState × List Eff × Bool :=
  flushGuestsBufferM st [] writeOk

/-- One page of guests from `LumaService.getEventGuests`. -/
structure GuestsResponse where
  entries : List Guest
  has_more : Bool
  next_cursor : Option String
deriving DecidableEq, Repr

/-- The external collaborators of one sync run: `guestPage ev cursor` is the
response of `getEventGuests` (`none` models a thrown fetch error) and
`eventDetail ev` the event name from `getEventDetails` (`none` a throw). -/
structure Env where
  guestPage : String → Option String → Option GuestsResponse
  eventDetail : String → Option String

/-- The dedup filter of `processEventGuests`: drop each incoming row whose
column-0 id is already present in the buffered rows. -/
def dedupNewRows (buffer : List Row) (rows : List Row) : List Row :=
  let existingIds := buffer.map rowId
  rows.filter (fun r => !(existingIds.contains (rowId r)))

/-- The accumulation block of `processEventGuests` (sync.ts lines 304-327):
dedup the page rows against the current buffer, append the survivors, and
flush once the buffer reaches `GUESTS_FLUSH_THRESHOLD`. -/
def accumulateGuests (writeOk : Bool) (st : SyncState) (rows : List Row) :
    SyncState × List SinkOp × Bool :=
  let newRows := dedupNewRows st.allGuestsData rows
  if newRows.isEmpty then (st, [], true)
  else
    let updated := st.allGuestsData ++ newRows
    let st1 : SyncState := { st with allGuestsData := updated }
    if GUESTS_FLUSH_THRESHOLD ≤ updated.length then
      let r := flushGuestsBufferM st1 [] writeOk
      (r.1, sinkOpsOfEffs r.2.1, r.2.2)
    else (st1, [], true)

/-- The cursor bookkeeping at the end of `processEventGuests` (sync.ts lines
330-350): store the new `currentEventGuests`; when the page said `has_more =
false`, additionally clear the cursor and advance `lastProcessedIndex`. -/
def advanceCursor (st : SyncState) (eventId : String) (gs : CurrentEventGuests)
    (resp : GuestsResponse) : SyncState :=
  let newGs : CurrentEventGuests :=
    { eventId := eventId, nextCursor := resp.next_cursor, hasMore := resp.has_more,
      processedCount := gs.processedCount + resp.entries.length }
  let st2 : SyncState := { st with currentEventGuests := some newGs }
  if resp.has_more then st2
  else
    { st2 with currentEventGuests := none,
               lastProcessedIndex := st2.lastProcessedIndex + 1 }

/-- `processEventGuests` of sync.ts (lines 260-356).  Returns the new persisted
state, the sink writes issued by a threshold flush, and `false` when an error
is rethrown (failed guest fetch, or failed threshold flush). -/
def processEventGuests (env : Env) (writeOk : Bool) (st : SyncState) (eventId : String) :
    SyncState × List SinkOp × Bool :=
  let fresh : CurrentEventGuests :=
    { eventId := eventId, nextCursor := none, hasMore := true, processedCount := 0 }
  let gs : CurrentEventGuests :=
    match st.currentEventGuests with
    | some g => if g.eventId == eventId then g else fresh
    | none => fresh
  if !gs.hasMore then (st, [], true)
  else
    match env.guestPage eventId gs.nextCursor with
    | none => (st, [], false)
    | some resp =>
      let acc :=
        if 0 < resp.entries.length then
          accumulateGuests writeOk st (resp.entries.map (guestToRow eventId))
        else (st, [], true)
      if acc.2.2 then (advanceCursor acc.1 eventId gs resp, acc.2.1, true)
      else (acc.1, acc.2.1, false)

/-- The insertion `{...state.eventDetails, [eventId]: {name, processed: true}}`
performed by `processEventDetails`. -/
def upsertEventDetail (l : List (String × String × Bool)) (k : String) (nm : String) :
    List (String × String × Bool) :=
  if l.any (fun p => p.1 == k) then
    l.map (fun p => if p.1 == k then (k, nm, true) else p)
  else l ++ [(k, nm, true)]

/-- `processEventDetails` of sync.ts: fetch the event details and record the
event name; `false` when the fetch throws. -/
def processEventDetails (env : Env) (st : SyncState) (eventId : String) :
    SyncState × Bool :=
  match env.eventDetail eventId with
  | some nm => ({ st with eventDetails := upsertEventDetail st.eventDetails eventId nm }, true)
  | none => (st, false)

/-- Body of the per-event loop of `processBatch`: run the stage-specific
processing for one event id and record the id in `failedEvents` when it
throws (the catch block of sync.ts lines 510-516). -/
def runBatchItem (env : Env) (writeOk : Bool) (stage : Stage)
    (acc : SyncState × List SinkOp) (eventId : String) : SyncState × List SinkOp :=
  let s := acc.1
  let ops := acc.2
  match stage with
  | Stage.details =>
    let r := processEventDetails env s eventId
    if r.2 then (r.1, ops)
    else ({ r.1 with failedEvents := r.1.failedEvents ++ [eventId] }, ops)
  | Stage.guests =>
    let r := processEventGuests env writeOk s eventId
    if r.2.2 then (r.1, ops ++ r.2.1)
    else ({ r.1 with failedEvents := r.1.failedEvents ++ [eventId] }, ops ++ r.2.1)
  | _ => (s, ops)

/-- `processBatch` of sync.ts (lines 489-530).  The final guard re-uses the
state object read *before* the batch ran, so `lastProcessedIndex` is advanced
whenever the pre-batch state had no `currentEventGuests`, even if the batch
just created one. -/
def processBatch (env : Env) (writeOk : Bool) (st : SyncState) (stage : Stage) :
    SyncState × List SinkOp :=
  let batch := (st.pendingEvents.drop st.lastProcessedIndex).take BATCH_SIZE
  let r := batch.foldl (runBatchItem env writeOk stage) (st, [])
  if stage != Stage.guests || st.currentEventGuests.isNone then
    ({ r.1 with lastProcessedIndex := st.lastProcessedIndex + batch.length }, r.2)
  else r

/-- `processPendingEvents` of sync.ts (lines 443-487): one bounded unit of work
of the drive loop.  `false` marks a rethrown error (only the finalization
flush can throw here; per-event errors are swallowed by `processBatch`). -/
def processPendingEvents (env : Env) (writeOk : Bool) (st : SyncState) :
    SyncState × List SinkOp × Bool :=
  if st.pendingEvents.length ≤ st.lastProcessedIndex then
    match st.currentStage with
    | Stage.events =>
      ({ st with currentStage := Stage.guests, lastProcessedIndex := 0 }, [], true)
    | Stage.details =>
      ({ st with currentStage := Stage.guests, lastProcessedIndex := 0 }, [], true)
    | Stage.guests =>
      let r := flushGuestsBuffer st writeOk
      if r.2.2 then
        ({ r.1 with currentStage := Stage.completed }, sinkOpsOfEffs r.2.1, true)
      else (r.1, sinkOpsOfEffs r.2.1, false)
    | Stage.completed =>
      let r := processBatch env writeOk st Stage.completed
      (r.1, r.2, true)
  else
    let r := processBatch env writeOk st st.currentStage
    (r.1, r.2, true)

/-- `n` successive invocations of `processPendingEvents` by the external
driver, collecting every sink write; `writeOks k` says whether the sink write
attempted during invocation `k` (if any) succeeds. -/
def driveN (env : Env) (writeOks : Nat → Bool) : Nat → SyncState → SyncState × List SinkOp
  | 0, st => (st, [])
  | Nat.succ n, st =>
    let r := processPendingEvents env (writeOks 0) st
    let rest := driveN env (fun k => writeOks (k + 1)) n r.1
    (rest.1, r.2.1 ++ rest.2)

/-- The state written by the `updateState` call of `queueAllEvents` (sync.ts
lines 175-191) once the event listing has been drained: `eventIds` are the
collected `api_id`s, `finalCursor`/`finalHasMore` the last pagination state,
`afterF`/`beforeF` the stored date-range filter.  `failedEvents` is not among
the updated keys and is therefore carried over. -/
def queueAllEventsState (st : SyncState) (eventIds : List String)
    (finalCursor : Option String) (finalHasMore : Bool)
    (afterF beforeF : Option String) (now : Nat) : SyncState :=
  { st with
    currentStage := Stage.events,
    pendingEvents := eventIds,
    lastProcessedIndex := 0,
    lastSyncTime := now,
    eventDetails := [],
    nextCursor := finalCursor,
    hasMore := finalHasMore,
    dateRange := some (afterF, beforeF),
    guestsSheetInitialized := false,
    allGuestsData := [] }

/-- The state transition of `fetchNextBatch` (sync.ts lines 399-440) on a
successful listing response. -/
def fetchNextBatchState (st : SyncState) (ids : List String)
    (respCursor : Option String) (respHasMore : Bool) (now : Nat) : SyncState :=
  if !st.hasMore && st.currentStage == Stage.events then st
  else
    { st with
      pendingEvents := st.pendingEvents ++ ids,
      nextCursor := respCursor,
      hasMore := respHasMore,
      lastSyncTime := now }

/-- `stopSync` of sync.ts (lines 581-588): force the completed stage, set the
index past the end, issue no sink call. -/
def stopSync (st : SyncState) : SyncState × List SinkOp :=
  ({ st with currentStage := Stage.completed,
             lastProcessedIndex := st.pendingEvents.length }, [])

/-- `resetSync` of sync.ts (lines 591-606).  Note that its update list does not
mention `nextCursor`, which is therefore carried over by the state merge. -/
def resetSync (st : SyncState) : SyncState :=
  { st with
    lastSyncTime := 0,
    currentStage := Stage.events,
    pendingEvents := [],
    failedEvents := [],
    lastProcessedIndex := 0,
    eventDetails := [],
    hasMore := true,
    dateRange := none,
    currentEventGuests := none,
    allGuestsData := [],
    guestsSheetInitialized := false }

/-- The fresh state `cleanup` stores (sync.ts lines 608-630). -/
def cleanupState : SyncState :=
  { lastSyncTime := 0,
    currentStage := Stage.events,
    pendingEvents := [],
    failedEvents := [],
    lastProcessedIndex := 0,
    eventDetails := [],
    nextCursor := none,
    hasMore := true,
    dateRange := none,
    currentEventGuests := none,
    allGuestsData := [],
    guestsSheetInitialized := false }

/-- `cleanup` of sync.ts: replace the whole persisted state. -/
def cleanup (_st : SyncState) : SyncState := cleanupState

/-- `Math.min` on exact rationals. -/
def ratMin (a b : ℚ) : ℚ := if a ≤ b then a else b

/-- `Math.max` on exact rationals. -/
def ratMax (a b : ℚ) : ℚ := if b ≤ a then a else b

/-- The record returned by `getStatus` (sync.ts lines 533-578), with the
progress percentage as an exact rational. -/
structure SyncStatus where
  lastSyncTime : Nat
  currentStage : Stage
  totalEvents : Nat
  processedEvents : Nat
  failedEvents : Nat
  progress : ℚ
deriving DecidableEq, Repr

/-- `getStatus` of sync.ts: stage-weighted progress (events 20%, guests 80%),
a half-event bonus while an event's pagination is in flight, 100 when
completed, 0 when there are no pending events, clamped into `[0, 100]`. -/
def getStatus (st : SyncState) : SyncStatus :=
  let totalEvents := st.pendingEvents.length
  let overall : ℚ :=
    if 0 < totalEvents then
      let processed : ℚ := (st.lastProcessedIndex : ℚ)
      let total : ℚ := (totalEvents : ℚ)
      let eventsWeight : ℚ := 1 / 5
      let guestsWeight : ℚ := 4 / 5
      match st.currentStage with
      | Stage.events => processed / total * eventsWeight * 100
      | Stage.guests =>
        let base : ℚ := eventsWeight * 100
        let gp : ℚ := processed / total * guestsWeight * 100
        let gp2 : ℚ :=
          match st.currentEventGuests with
          | some c =>
            if 0 < c.processedCount then
              ratMin (gp + guestsWeight * 100 / total * (1 / 2)) (guestsWeight * 100)
            else gp
          | none => gp
        base + gp2
      | Stage.completed => 100
      | Stage.details => 0
    else 0
  { lastSyncTime := st.lastSyncTime,
    currentStage := st.currentStage,
    totalEvents := totalEvents,
    processedEvents := st.lastProcessedIndex,
    failedEvents := st.failedEvents.length,
    progress := ratMax 0 (ratMin 100 overall) }

/-! The Luma client's retry wrapper (`fetchWithAuth` / `fetchWithRetry`). -/

/-- Errors thrown by `fetchWithAuth`: a non-OK HTTP status becomes a thrown
error carrying the status, an aborted request becomes a timeout error;
`maxRetriesExceeded` is the fall-through throw of `fetchWithRetry`. -/
inductive LumaError where
  | http (status : Nat)
  | timeout
  | maxRetriesExceeded
deriving DecidableEq, Repr

/-- What happened to the underlying `fetch` call: a response with some HTTP
status, or an abort fired by the 10-second timeout. -/
inductive AuthOutcome where
  | resp (status : Nat)
  | abortTimeout
deriving DecidableEq, Repr

/-- `response.ok`: status in the 200-299 range. -/
def responseOk (status : Nat) : Bool := 200 ≤ status && status < 300

/-- The error classification performed by `fetchWithAuth`: any non-OK status
(4xx and 5xx alike) is thrown as an HTTP error, an abort as a timeout error;
an OK response is returned. -/
def fetchWithAuthResult (o : AuthOutcome) : Except LumaError Nat :=
  match o with
  | AuthOutcome.resp s => if responseOk s then Except.ok s else Except.error (LumaError.http s)
  | AuthOutcome.abortTimeout => Except.error LumaError.timeout

/-- Outcome of one `fetchWithRetry` call: the returned-or-thrown result, how
many attempts were dispatched, and the backoff delays (ms) slept between
attempts. -/
structure RetryRun (α : Type) where
  result : Except LumaError α
  attempts : Nat
  delays : List Nat
deriving Repr

/-- The retry loop of `fetchWithRetry` from attempt index `i` with `rem`
iterations left (`rem = retries - i`, so the loop guard `i < retries` is
`rem > 0`): try attempt `i`; on error rethrow if it was the last allowed
attempt (`i === retries - 1`), otherwise sleep `2^i * 1000` ms and continue.
When the loop falls through, the final `Max retries exceeded` error is
thrown. -/
def fetchWithRetryFrom (results : Nat → Except LumaError α) (retries : Nat) :
    Nat → Nat → RetryRun α
  | _, 0 => { result := Except.error LumaError.maxRetriesExceeded, attempts := 0, delays := [] }
  | i, Nat.succ rem =>
    match results i with
    | Except.ok v => { result := Except.ok v, attempts := 1, delays := [] }
    | Except.error e =>
      if i = retries - 1 then { result := Except.error e, attempts := 1, delays := [] }
      else
        let rest := fetchWithRetryFrom results retries (i + 1) rem
        { result := rest.result, attempts := rest.attempts + 1,
          delays := (2 ^ i * 1000) :: rest.delays }

/-- `fetchWithRetry` of the Luma client: `results k` is the outcome
`fetchWithAuth` would produce on the `k`-th attempt. -/
def fetchWithRetry (results : Nat → Except LumaError α) (retries : Nat) : RetryRun α :=
  fetchWithRetryFrom results retries 0 retries

/-- The default retry count of `fetchWithRetry`. -/
def LUMA_RETRIES : Nat := 3

/-! Counting helpers and the trace predicate used by the theorems below. -/

/-- Number of rows in `rows` carrying guest id `idv` in column 0. -/
def countId (rows : List Row) (idv : String) : Nat :=
  rows.countP (fun r => rowId r == idv)

/-- All rows written by a list of sink calls, in write order. -/
def opsRows (ops : List SinkOp) : List Row :=
  (ops.map SinkOp.rows).flatten

/-- `opsChain b ops b2`: the guest-sheet write trace `ops` is consistent with
starting the run with `guestsSheetInitialized = b` and ending with it `= b2`,
every write targeting the Guests sheet in the mode dictated by the flag at the
time of the write (overwrite when the flag is still false, append afterwards),
the flag being true from the first write on. -/
def opsChain (b : Bool) : List SinkOp → Bool → Prop
  | [], b2 => b2 = b
  | o :: rest, b2 => o.sheet = "Guests" ∧ o.append = b ∧ opsChain true rest b2

/-! Concrete fixtures used by the counterexamples and witnesses. -/

/-- A guest entry whose only populated field is its id. -/
def mkGuest (id : String) : Guest :=
  { api_id := id, user_name := "", user_email := "", user_first_name := none,
    user_last_name := none, approval_status := "", checked_in_at := none,
    check_in_qr_code := none, created_at := "", updated_at := "" }

/-- The persisted state right after a `queueAllEvents` run that discovered the
two events `e1` and `e2`. -/
def st0Run : SyncState :=
  queueAllEventsState cleanupState ["e1", "e2"] none false none none 0

/-- 500 distinct guests, ids `"0"` to `"499"`: the single page of `e1` in the
dedup counterexample (enough to cross `GUESTS_FLUSH_THRESHOLD`). -/
def pageE1C1 : GuestsResponse :=
  { entries := (List.range 500).map (fun i => mkGuest (toString i)),
    has_more := false, next_cursor := none }

/-- The single page of `e2` in the dedup counterexample: it repeats guest id
`"0"`, which the `e1` page already delivered. -/
def pageE2C1 : GuestsResponse :=
  { entries := [mkGuest "0"], has_more := false, next_cursor := none }

/-- Environment of the dedup counterexample: `e1` yields one page of 500
guests, `e2` yields one page repeating guest `"0"`. -/
def envC1 : Env :=
  { guestPage := fun e _c =>
      if e == "e1" then some pageE1C1 else if e == "e2" then some pageE2C1 else none,
    eventDetail := fun _ => none }

/-- Environment of the failure-isolation scenario: `e1` has a first guest page
with more pages to follow; every guest fetch for any other event throws. -/
def envC5 : Env :=
  { guestPage := fun e _c =>
      if e == "e1" then
        some { entries := [mkGuest "g1"], has_more := true, next_cursor := some "c1" }
      else none,
    eventDetail := fun _ => none }

/-- The state the failure-isolation run is stuck in after four drive steps:
`lastProcessedIndex` was advanced past `e1` by the stale-read guard of
`processBatch` although `e1`'s pagination (cursor `c1`) is still in flight,
and the leftover cursor now keeps the guard from ever advancing again. -/
def stuckC5 : SyncState :=
  { lastSyncTime := 0,
    currentStage := Stage.guests,
    pendingEvents := ["e1", "e2"],
    failedEvents := [],
    lastProcessedIndex := 1,
    eventDetails := [],
    nextCursor := none,
    hasMore := false,
    dateRange := some (none, none),
    currentEventGuests :=
      some ({ eventId := "e1", nextCursor := some "c1", hasMore := true,
              processedCount := 1 } : CurrentEventGuests),
    allGuestsData := [guestToRow "e1" (mkGuest "g1")],
    guestsSheetInitialized := false }

/-- Environment of the progress-decrease scenario: both events answer their
first guest page with `has_more = true`; `e2`'s page is empty. -/
def envC6 : Env :=
  { guestPage := fun e _c =>
      if e == "e1" then
        some { entries := [mkGuest "g1"], has_more := true, next_cursor := some "c1" }
      else if e == "e2" then
        some { entries := [], has_more := true, next_cursor := some "c2" }
      else none,
    eventDetail := fun _ => none }

/-- The state after four drive steps of the progress-decrease run: index
already advanced to 1 while `e1`'s cursor (with one processed guest, hence
the partial-progress bonus) is still stored. -/
def stC6a : SyncState :=
  { lastSyncTime := 0, currentStage := Stage.guests, pendingEvents := ["e1", "e2"],
    failedEvents := [], lastProcessedIndex := 1, eventDetails := [], nextCursor := none,
    hasMore := false, dateRange := some (none, none),
    currentEventGuests :=
      some ({ eventId := "e1", nextCursor := some "c1", hasMore := true,
              processedCount := 1 } : CurrentEventGuests),
    allGuestsData := [guestToRow "e1" (mkGuest "g1")], guestsSheetInitialized := false }

/-- Fresh cursor for `e2` with no processed guests yet. -/
def curC6b : CurrentEventGuests :=
  { eventId := "e2", nextCursor := some "c2", hasMore := true, processedCount := 0 }

/-- The state one drive step later: the cursor has been replaced with `e2`'s
fresh cursor (`processedCount = 0`), so the bonus term of `getStatus`
disappears while `lastProcessedIndex` is unchanged. -/
def stC6b : SyncState :=
  { stC6a with currentEventGuests := some curC6b }

/-- Environment of the sink-write-once witness run: a single event `e1` with a
single final guest page. -/
def envC4w : Env :=
  { guestPage := fun e _c =>
      if e == "e1" then
        some { entries := [mkGuest "a"], has_more := false, next_cursor := none }
      else none,
    eventDetail := fun _ => none }

/-- A concrete guest row used by the flush counterexample and witnesses. -/
def rowA : Row := guestToRow "e1" (mkGuest "a")

/-- A second, distinct concrete guest row. -/
def rowB : Row := guestToRow "e1" (mkGuest "b")

/-- A state whose guest buffer holds exactly `rowA`. -/
def stBufA : SyncState := { cleanupState with allGuestsData := [rowA] }

/-- Environment of the dedup witness: the single page of `e1` repeats the
already-buffered guest `a` and brings the new guest `b`. -/
def envC1w : Env :=
  { guestPage := fun e _c =>
      if e == "e1" then
        some { entries := [mkGuest "a", mkGuest "b"], has_more := false, next_cursor := none }
      else none,
    eventDetail := fun _ => none }

/-! Helper lemmas about `flushGuestsBufferM`, `ratMin`/`ratMax` and traces. -/

theorem flushM_of_empty (st : SyncState) (mw : List Row) (w : Bool)
    (h : st.allGuestsData = []) : flushGuestsBufferM st mw w = (st, [], true) := by
  simp [flushGuestsBufferM, h]

theorem flushM_of_fail (st : SyncState) (mw : List Row) (h : st.allGuestsData ≠ []) :
    flushGuestsBufferM st mw false =
      ({ st with allGuestsData := mw ++ st.allGuestsData },
       [Eff.putState { st with allGuestsData := [] },
        Eff.sinkWrite { sheet := "Guests", rows := st.allGuestsData,
                        append := st.guestsSheetInitialized },
        Eff.putState { st with allGuestsData := mw ++ st.allGuestsData }], false) := by
  simp [flushGuestsBufferM, h]

theorem flushM_of_ok (st : SyncState) (mw : List Row) (h : st.allGuestsData ≠ []) :
    (flushGuestsBufferM st mw true).1
        = { st with allGuestsData := mw, guestsSheetInitialized := true }
  ∧ sinkOpsOfEffs (flushGuestsBufferM st mw true).2.1
        = [{ sheet := "Guests", rows := st.allGuestsData,
             append := st.guestsSheetInitialized }]
  ∧ (flushGuestsBufferM st mw true).2.2 = true := by
  cases hi : st.guestsSheetInitialized <;>
    simp [flushGuestsBufferM, h, hi, sinkOpsOfEffs]

theorem flushM_failedEvents (st : SyncState) (mw : List Row) (w : Bool) :
    (flushGuestsBufferM st mw w).1.failedEvents = st.failedEvents := by
  cases h : st.allGuestsData <;> cases w <;> cases hi : st.guestsSheetInitialized <;>
    simp [flushGuestsBufferM, h, hi]

theorem flushM_ok_flag (st : SyncState) (mw : List Row) :
    (flushGuestsBufferM st mw true).2.2 = true := by
  cases h : st.allGuestsData <;> cases hi : st.guestsSheetInitialized <;>
    simp [flushGuestsBufferM, h, hi]

theorem flushM_chain (st : SyncState) (mw : List Row) :
    opsChain st.guestsSheetInitialized
      (sinkOpsOfEffs (flushGuestsBufferM st mw true).2.1)
      ((flushGuestsBufferM st mw true).1.guestsSheetInitialized) := by
  cases h : st.allGuestsData <;> cases hi : st.guestsSheetInitialized <;>
    simp [flushGuestsBufferM, h, hi, sinkOpsOfEffs, opsChain]

theorem le_ratMax_left (a b : ℚ) : a ≤ ratMax a b := by
  unfold ratMax; split
  · exact le_refl a
  · exact le_of_not_le (by assumption)

theorem ratMax_le (a b c : ℚ) (h1 : a ≤ c) (h2 : b ≤ c) : ratMax a b ≤ c := by
  unfold ratMax; split <;> assumption

theorem ratMin_le_left (a b : ℚ) : ratMin a b ≤ a := by
  unfold ratMin; split
  · exact le_refl a
  · exact le_of_not_le (by assumption)

/-! The claim theorems. -/

/-- C7: for every persisted state, `stopSync` sets `currentStage` to completed
and `lastProcessedIndex` to the length of `pendingEvents`, issues no sink
write, and leaves every other persisted field — `allGuestsData`,
`failedEvents`, `pendingEvents`, `guestsSheetInitialized`,
`currentEventGuests`, `eventDetails`, `lastSyncTime`, `nextCursor`, `hasMore`,
`dateRange` — unchanged. -/
theorem stopSync_frame (st : SyncState) :
    (stopSync st).1.currentStage = Stage.completed
  ∧ (stopSync st).1.lastProcessedIndex = st.pendingEvents.length
  ∧ (stopSync st).2 = []
  ∧ (stopSync st).1.allGuestsData = st.allGuestsData
  ∧ (stopSync st).1.failedEvents = st.failedEvents
  ∧ (stopSync st).1.pendingEvents = st.pendingEvents
  ∧ (stopSync st).1.guestsSheetInitialized = st.guestsSheetInitialized
  ∧ (stopSync st).1.currentEventGuests = st.currentEventGuests
  ∧ (stopSync st).1.eventDetails = st.eventDetails
  ∧ (stopSync st).1.lastSyncTime = st.lastSyncTime
  ∧ (stopSync st).1.nextCursor = st.nextCursor
  ∧ (stopSync st).1.hasMore = st.hasMore
  ∧ (stopSync st).1.dateRange = st.dateRange :=
  ⟨rfl, rfl, rfl, rfl, rfl, rfl, rfl, rfl, rfl, rfl, rfl, rfl, rfl⟩

/-- C8: flushing an empty guest buffer is a no-op: no effect (in particular no
sink call) is issued and the persisted state is returned unchanged. -/
theorem flush_empty_noop (st : SyncState) (mw : List Row) (w : Bool)
    (h : st.allGuestsData = []) :
    flushGuestsBufferM st mw w = (st, [], true) := by
  simp [flushGuestsBufferM, h]

/-- Witness for C8 at a concrete empty-buffer state. -/
theorem flush_empty_noop_witness :
    flushGuestsBufferM cleanupState [rowA] false = (cleanupState, [], true) :=
  flush_empty_noop cleanupState [rowA] false rfl

/-- Counterexample to C3 as stated: when the sink write fails with `rowB`
having been buffered in the meantime, the detached row `rowA` is re-merged
*after* `rowB` (`[rowB, rowA]`), not prepended before it (`[rowA, rowB]`). -/
theorem flush_fail_merge_order_counterexample :
    (flushGuestsBufferM stBufA [rowB] false).1.allGuestsData = [rowB, rowA]
  ∧ [rowB, rowA] ≠ [rowA, rowB] := by
  exact ⟨rfl, by decide⟩

/-- C3 as amended: for a non-empty buffer, `flushGuestsBuffer` first persists
the emptied buffer, then attempts the sink write of the detached rows; on
failure the detached rows are re-merged *appended after* whatever the buffer
holds at the catch (`meanwhile`), the error is propagated, the
initialized-flag is untouched, and no row is lost or duplicated. -/
theorem flush_fail_restores_buffer (st : SyncState) (mw : List Row)
    (h : st.allGuestsData ≠ []) :
    (flushGuestsBufferM st mw false).2.1
        = [Eff.putState { st with allGuestsData := [] },
           Eff.sinkWrite { sheet := "Guests", rows := st.allGuestsData,
                           append := st.guestsSheetInitialized },
           Eff.putState { st with allGuestsData := mw ++ st.allGuestsData }]
  ∧ (flushGuestsBufferM st mw false).1.allGuestsData = mw ++ st.allGuestsData
  ∧ (flushGuestsBufferM st mw false).2.2 = false
  ∧ (flushGuestsBufferM st mw false).1.guestsSheetInitialized = st.guestsSheetInitialized
  ∧ (∀ r : Row, ((flushGuestsBufferM st mw false).1.allGuestsData).count r
        = mw.count r + st.allGuestsData.count r) := by
  rw [flushM_of_fail st mw h]
  exact ⟨rfl, rfl, rfl, rfl, fun r => List.count_append r mw st.allGuestsData⟩

/-- Witness for C3's amended theorem at a concrete failing flush. -/
theorem flush_fail_restores_buffer_witness :
    stBufA.allGuestsData ≠ []
  ∧ (flushGuestsBufferM stBufA [rowB] false).1.allGuestsData = [rowB] ++ stBufA.allGuestsData :=
  ⟨by decide, (flush_fail_restores_buffer stBufA [rowB] (by decide)).2.1⟩

/-- Counterexample to C2 as stated: an attempt that fails with HTTP 404 (a 4xx
status, classified as an error by `fetchWithAuthResult`) is retried like any
other failure — the wrapper makes all 3 attempts and sleeps the two backoff
delays, instead of propagating after 1 attempt. -/
theorem fetchWithRetry_404_counterexample :
    fetchWithAuthResult (AuthOutcome.resp 404) = Except.error (LumaError.http 404)
  ∧ (fetchWithRetry (fun _ => fetchWithAuthResult (AuthOutcome.resp 404)) LUMA_RETRIES).attempts
      = 3
  ∧ (fetchWithRetry (fun _ => fetchWithAuthResult (AuthOutcome.resp 404)) LUMA_RETRIES).delays
      = [1000, 2000]
  ∧ (3 : Nat) ≠ 1 :=
  ⟨rfl, rfl, rfl, by decide⟩

/-- C2 as amended: `fetchWithRetry` treats every failure uniformly — whatever
the error (timeout, 4xx or 5xx alike), a failed attempt is retried after an
exponential backoff of `2^attempt * 1000` ms, up to the fixed 3 attempts, the
last failure's error propagating; a success returns immediately. -/
theorem fetchWithRetry_uniform (e : LumaError) (v : Nat) :
    fetchWithRetry (fun _ => (Except.error e : Except LumaError Nat)) LUMA_RETRIES
        = { result := Except.error e, attempts := 3, delays := [1000, 2000] }
  ∧ fetchWithRetry (fun i => if i == 0 then Except.error e else Except.ok v) LUMA_RETRIES
        = { result := Except.ok v, attempts := 2, delays := [1000] }
  ∧ fetchWithRetry (fun _ => (Except.ok v : Except LumaError Nat)) LUMA_RETRIES
        = { result := Except.ok v, attempts := 1, delays := [] } :=
  ⟨rfl, rfl, rfl⟩

/-- C9: the progress percentage reported by `getStatus` always lies in
`[0, 100]`, and it is `0` whenever `pendingEvents` is empty, whatever the
stage (in particular a completed state with no pending events reports 0). -/
theorem getStatus_progress_bounds (st : SyncState) :
    0 ≤ (getStatus st).progress
  ∧ (getStatus st).progress ≤ 100
  ∧ (st.pendingEvents = [] → (getStatus st).progress = 0) := by
  refine ⟨le_ratMax_left 0 _, ratMax_le 0 _ 100 (by norm_num) (ratMin_le_left 100 _), ?_⟩
  intro h
  simp [getStatus, h, ratMin, ratMax]

/-- Witness for C9: right after `stopSync` on a fresh state the stage is
completed, `pendingEvents` is empty, and the reported progress is 0. -/
theorem getStatus_progress_bounds_witness :
    (stopSync cleanupState).1.pendingEvents = []
  ∧ (stopSync cleanupState).1.currentStage = Stage.completed
  ∧ (getStatus (stopSync cleanupState).1).progress = 0 :=
  ⟨rfl, rfl, (getStatus_progress_bounds (stopSync cleanupState).1).2.2 rfl⟩

theorem processPendingEvents_stuckC5 (F : List String) :
    processPendingEvents envC5 true { stuckC5 with failedEvents := F }
      = ({ stuckC5 with failedEvents := F ++ ["e2"] }, [], true) := rfl

theorem driveN_stuckC5 (n : Nat) : ∀ F : List String,
    (driveN envC5 (fun _ => true) n { stuckC5 with failedEvents := F }).1
      = { stuckC5 with failedEvents := F ++ List.replicate n "e2" } := by
  induction n with
  | zero => intro F; simp [driveN]
  | succ n ih =>
    intro F
    simp only [driveN, processPendingEvents_stuckC5 F]
    rw [ih (F ++ ["e2"])]
    simp [List.replicate_succ]

/-- C5 fails on the code (a code bug, `processBatch`'s final guard reads the
pre-batch state): after the stale-read guard prematurely advanced past the
still-paginating `e1`, the leftover `currentEventGuests` cursor blocks any
further index advancement, so with `e2`'s guest fetch always throwing, the run
never reaches the completed stage, `e2` is re-appended to `failedEvents` on
every invocation, and `e1`'s remaining pages are skipped.  The stuck state is
reached in 4 drive steps from the post-`queueAllEvents` state. -/
theorem failure_isolation_code_bug :
    (driveN envC5 (fun _ => true) 4 st0Run).1 = stuckC5
  ∧ (∀ n : Nat, (driveN envC5 (fun _ => true) n stuckC5).1
      = { stuckC5 with failedEvents := List.replicate n "e2" })
  ∧ (∀ n : Nat, (driveN envC5 (fun _ => true) n stuckC5).1.currentStage = Stage.guests)
  ∧ Stage.guests ≠ Stage.completed := by
  have h2 : ∀ n : Nat, (driveN envC5 (fun _ => true) n stuckC5).1
      = { stuckC5 with failedEvents := List.replicate n "e2" } :=
    fun n => driveN_stuckC5 n []
  refine ⟨by decide, h2, ?_, by decide⟩
  intro n
  rw [h2 n]
  rfl

/-- Fourth and fifth drive states of the progress-decrease run match the
fixture states. -/
theorem driveN_envC6_states :
    (driveN envC6 (fun _ => true) 4 st0Run).1 = stC6a
  ∧ (driveN envC6 (fun _ => true) 5 st0Run).1 = stC6b := by
  exact ⟨by decide, by decide⟩

/-- C6 fails on the code (same stale-read code bug as the failure-isolation
property): between the fourth and fifth `processPendingEvents` invocation of a
run started by `queueAllEvents` over two events, the reported progress drops
from 80 to 60 — the premature index advance banked `e1`'s in-flight bonus into
a progress of 80, and the bonus vanishes when the cursor is replaced by `e2`'s
fresh zero-count cursor. -/
theorem progress_decrease_code_bug :
    (driveN envC6 (fun _ => true) 4 st0Run).1 = stC6a
  ∧ (driveN envC6 (fun _ => true) 5 st0Run).1 = stC6b
  ∧ (getStatus stC6a).progress = 80
  ∧ (getStatus stC6b).progress = 60
  ∧ (getStatus stC6b).progress < (getStatus stC6a).progress := by
  have h3 : (getStatus stC6a).progress = 80 := by
    simp [getStatus, stC6a, ratMin, ratMax]
    norm_num
  have h4 : (getStatus stC6b).progress = 60 := by
    simp [getStatus, stC6b, stC6a, curC6b, ratMin, ratMax]
    norm_num
  refine ⟨driveN_envC6_states.1, driveN_envC6_states.2, h3, h4, ?_⟩
  rw [h3, h4]
  norm_num

theorem advanceCursor_allGuestsData (st : SyncState) (eventId : String)
    (gs : CurrentEventGuests) (resp : GuestsResponse) :
    (advanceCursor st eventId gs resp).allGuestsData = st.allGuestsData := by
  unfold advanceCursor; split <;> rfl

theorem advanceCursor_failedEvents (st : SyncState) (eventId : String)
    (gs : CurrentEventGuests) (resp : GuestsResponse) :
    (advanceCursor st eventId gs resp).failedEvents = st.failedEvents := by
  unfold advanceCursor; split <;> rfl

theorem advanceCursor_init (st : SyncState) (eventId : String)
    (gs : CurrentEventGuests) (resp : GuestsResponse) :
    (advanceCursor st eventId gs resp).guestsSheetInitialized
      = st.guestsSheetInitialized := by
  unfold advanceCursor; split <;> rfl

theorem dedupNewRows_countId (buffer rows : List Row) (idv : String)
    (h : idv ∈ buffer.map rowId) :
    countId (dedupNewRows buffer rows) idv = 0 := by
  unfold countId dedupNewRows
  rw [List.countP_eq_zero]
  intro r hr
  simp only [List.mem_filter, Bool.not_eq_eq_eq_not, Bool.not_true] at hr
  intro hbeq
  have hid : rowId r = idv := by
    simpa using hbeq
  rw [hid] at hr
  have hc : (buffer.map rowId).contains idv = true := List.elem_eq_true_of_mem h
  rw [hc] at hr
  exact Bool.true_eq_false.mp hr.2

theorem accumulateGuests_countId (st : SyncState) (rows : List Row) (idv : String)
    (h : idv ∈ st.allGuestsData.map rowId) :
    countId (accumulateGuests true st rows).1.allGuestsData idv
      + countId (opsRows (accumulateGuests true st rows).2.1) idv
    = countId st.allGuestsData idv := by
  have hded := dedupNewRows_countId st.allGuestsData rows idv h
  have hded2 : ∀ a ∈ dedupNewRows st.allGuestsData rows, ¬ rowId a = idv := by
    intro a ha hEq
    have hz := List.countP_eq_zero.mp hded a ha
    exact hz (by simp [hEq])
  by_cases he : (dedupNewRows st.allGuestsData rows).isEmpty = true
  · have hstep : accumulateGuests true st rows = (st, [], true) := by
      simp only [accumulateGuests]
      rw [if_pos he]
    rw [hstep]
    simp [countId, opsRows]
  · have hnil : dedupNewRows st.allGuestsData rows ≠ [] := by
      intro hn
      exact he (by simp [hn])
    by_cases ht : GUESTS_FLUSH_THRESHOLD
        ≤ (st.allGuestsData ++ dedupNewRows st.allGuestsData rows).length
    · have hne : ({ st with
          allGuestsData := st.allGuestsData ++ dedupNewRows st.allGuestsData rows
          } : SyncState).allGuestsData ≠ [] := by
        intro hn
        rw [List.append_eq_nil] at hn
        exact hnil hn.2
      obtain ⟨h1, h2, _h3⟩ := flushM_of_ok _ [] hne
      have hstep : accumulateGuests true st rows
          = ((flushGuestsBufferM { st with
                allGuestsData := st.allGuestsData ++ dedupNewRows st.allGuestsData rows
                } [] true).1,
             sinkOpsOfEffs (flushGuestsBufferM { st with
                allGuestsData := st.allGuestsData ++ dedupNewRows st.allGuestsData rows
                } [] true).2.1,
             (flushGuestsBufferM { st with
                allGuestsData := st.allGuestsData ++ dedupNewRows st.allGuestsData rows
                } [] true).2.2) := by
        simp only [accumulateGuests]
        rw [if_neg he, if_pos ht]
      rw [hstep]
      simp only [h1, h2]
      simp [countId, opsRows, List.countP_append]
      exact hded2
    · have hstep : accumulateGuests true st rows
          = ({ st with
                allGuestsData := st.allGuestsData ++ dedupNewRows st.allGuestsData rows },
             [], true) := by
        simp only [accumulateGuests]
        rw [if_neg he, if_neg ht]
      rw [hstep]
      simp [countId, opsRows, List.countP_append]
      exact hded2

/-- C1 as amended: deduplication acts only on the not-yet-flushed buffer — one
`processEventGuests` page step never adds another row carrying a guest id that
is currently in the buffer, so across the step the total number of rows with
that id in the buffer plus the rows newly written to the sink is unchanged.
(Once a flush has emptied the buffer, a later page repeating an already
flushed id is buffered and written again — see the counterexample.) -/
theorem dedup_within_buffer (env : Env) (st : SyncState) (eventId idv : String)
    (h : idv ∈ st.allGuestsData.map rowId) :
    countId (processEventGuests env true st eventId).1.allGuestsData idv
      + countId (opsRows (processEventGuests env true st eventId).2.1) idv
    = countId st.allGuestsData idv := by
  have hacc := fun rows => accumulateGuests_countId st rows idv h
  have htriv : countId (opsRows []) idv = 0 := by simp [opsRows, countId]
  unfold processEventGuests
  cases hcur : st.currentEventGuests with
  | none =>
    simp only [hcur]
    cases horacle : env.guestPage eventId none with
    | none => simp [horacle, htriv]
    | some resp =>
      simp only [horacle]
      by_cases hlen : 0 < resp.entries.length
      · by_cases hok :
            (accumulateGuests true st (resp.entries.map (guestToRow eventId))).2.2 = true
        · simp [hlen, hok, advanceCursor_allGuestsData, hacc]
        · simp [hlen, hok, advanceCursor_allGuestsData, hacc]
      · simp [hlen, htriv, advanceCursor_allGuestsData]
  | some g =>
    simp only [hcur]
    by_cases hev : (g.eventId == eventId) = true
    · by_cases hm : g.hasMore = true
      · simp only [hev, hm, if_true, Bool.not_true, Bool.false_eq_true]
        cases horacle : env.guestPage eventId g.nextCursor with
        | none => simp [horacle, htriv]
        | some resp =>
          simp only [horacle]
          by_cases hlen : 0 < resp.entries.length
          · by_cases hok :
                (accumulateGuests true st (resp.entries.map (guestToRow eventId))).2.2 = true
            · simp [hlen, hok, advanceCursor_allGuestsData, hacc]
            · simp [hlen, hok, advanceCursor_allGuestsData, hacc]
          · simp [hlen, htriv, advanceCursor_allGuestsData]
      · simp [hev, hm, htriv]
    · simp only [hev, Bool.false_eq_true, if_false]
      cases horacle : env.guestPage eventId none with
      | none => simp [horacle, htriv]
      | some resp =>
        simp only [horacle]
        by_cases hlen : 0 < resp.entries.length
        · by_cases hok :
              (accumulateGuests true st (resp.entries.map (guestToRow eventId))).2.2 = true
          · simp [hlen, hok, advanceCursor_allGuestsData, hacc]
          · simp [hlen, hok, advanceCursor_allGuestsData, hacc]
        · simp [hlen, htriv, advanceCursor_allGuestsData]

/-- Witness for C1's amended theorem: with row `a` already buffered, a page
repeating guest `a` (and adding `b`) leaves exactly one `a` row across buffer
and written rows. -/
theorem dedup_within_buffer_witness :
    "a" ∈ stBufA.allGuestsData.map rowId
  ∧ countId (processEventGuests envC1w true stBufA "e1").1.allGuestsData "a"
      + countId (opsRows (processEventGuests envC1w true stBufA "e1").2.1) "a"
      = countId stBufA.allGuestsData "a" :=
  ⟨by decide, dedup_within_buffer envC1w stBufA "e1" "a" (by decide)⟩

theorem accumulateGuests_nil (w : Bool) (st : SyncState) :
    accumulateGuests w st ([] : List Row) = (st, [], true) := rfl

theorem processEventGuests_cases (env : Env) (w : Bool) (st : SyncState) (eventId : String) :
    processEventGuests env w st eventId = (st, [], true)
  ∨ processEventGuests env w st eventId = (st, [], false)
  ∨ (∃ rows gs resp,
      processEventGuests env w st eventId
        = (advanceCursor (accumulateGuests w st rows).1 eventId gs resp,
           (accumulateGuests w st rows).2.1, true))
  ∨ (∃ rows,
      processEventGuests env w st eventId
        = ((accumulateGuests w st rows).1, (accumulateGuests w st rows).2.1, false)) := by
  cases hcur : st.currentEventGuests with
  | none =>
    cases horacle : env.guestPage eventId none with
    | none =>
      exact Or.inr (Or.inl (by simp [processEventGuests, hcur, horacle]))
    | some resp =>
      by_cases hlen : 0 < resp.entries.length
      · by_cases hok :
            (accumulateGuests w st (resp.entries.map (guestToRow eventId))).2.2 = true
        · refine Or.inr (Or.inr (Or.inl ⟨resp.entries.map (guestToRow eventId),
            ({ eventId := eventId, nextCursor := none, hasMore := true, processedCount := 0 } : CurrentEventGuests), resp, ?_⟩))
          simp [processEventGuests, hcur, horacle, hlen, hok]
        · refine Or.inr (Or.inr (Or.inr ⟨resp.entries.map (guestToRow eventId), ?_⟩))
          simp [processEventGuests, hcur, horacle, hlen, hok]
      · refine Or.inr (Or.inr (Or.inl ⟨[], ({ eventId := eventId, nextCursor := none, hasMore := true, processedCount := 0 } : CurrentEventGuests), resp, ?_⟩))
        rw [accumulateGuests_nil]
        simp [processEventGuests, hcur, horacle, hlen]
  | some g =>
    by_cases hev : (g.eventId == eventId) = true
    · by_cases hm : g.hasMore = true
      · cases horacle : env.guestPage eventId g.nextCursor with
        | none =>
          exact Or.inr (Or.inl (by simp [processEventGuests, hcur, horacle, hev, hm]))
        | some resp =>
          by_cases hlen : 0 < resp.entries.length
          · by_cases hok :
                (accumulateGuests w st (resp.entries.map (guestToRow eventId))).2.2 = true
            · refine Or.inr (Or.inr (Or.inl
                ⟨resp.entries.map (guestToRow eventId), g, resp, ?_⟩))
              simp [processEventGuests, hcur, horacle, hev, hm, hlen, hok]
            · refine Or.inr (Or.inr (Or.inr
                ⟨resp.entries.map (guestToRow eventId), ?_⟩))
              simp [processEventGuests, hcur, horacle, hev, hm, hlen, hok]
          · refine Or.inr (Or.inr (Or.inl ⟨[], g, resp, ?_⟩))
            rw [accumulateGuests_nil]
            simp [processEventGuests, hcur, horacle, hev, hm, hlen]
      · exact Or.inl (by simp [processEventGuests, hcur, hev, hm])
    · cases horacle : env.guestPage eventId none with
      | none =>
        exact Or.inr (Or.inl (by simp [processEventGuests, hcur, horacle, hev]))
      | some resp =>
        by_cases hlen : 0 < resp.entries.length
        · by_cases hok :
              (accumulateGuests w st (resp.entries.map (guestToRow eventId))).2.2 = true
          · refine Or.inr (Or.inr (Or.inl
              ⟨resp.entries.map (guestToRow eventId),
               ({ eventId := eventId, nextCursor := none, hasMore := true, processedCount := 0 } : CurrentEventGuests), resp, ?_⟩))
            simp [processEventGuests, hcur, horacle, hev, hlen, hok]
          · refine Or.inr (Or.inr (Or.inr
              ⟨resp.entries.map (guestToRow eventId), ?_⟩))
            simp [processEventGuests, hcur, horacle, hev, hlen, hok]
        · refine Or.inr (Or.inr (Or.inl ⟨[], ({ eventId := eventId, nextCursor := none, hasMore := true, processedCount := 0 } : CurrentEventGuests), resp, ?_⟩))
          rw [accumulateGuests_nil]
          simp [processEventGuests, hcur, horacle, hev, hlen]

theorem accumulateGuests_cases (w : Bool) (st : SyncState) (rows : List Row) :
    accumulateGuests w st rows = (st, [], true)
  ∨ accumulateGuests w st rows
      = ({ st with allGuestsData := st.allGuestsData ++ dedupNewRows st.allGuestsData rows },
         [], true)
  ∨ accumulateGuests w st rows
      = ((flushGuestsBufferM { st with
            allGuestsData := st.allGuestsData ++ dedupNewRows st.allGuestsData rows } [] w).1,
         sinkOpsOfEffs (flushGuestsBufferM { st with
            allGuestsData := st.allGuestsData ++ dedupNewRows st.allGuestsData rows } [] w).2.1,
         (flushGuestsBufferM { st with
            allGuestsData := st.allGuestsData ++ dedupNewRows st.allGuestsData rows } [] w).2.2) := by
  by_cases he : (dedupNewRows st.allGuestsData rows).isEmpty = true
  · refine Or.inl ?_
    simp only [accumulateGuests]
    rw [if_pos he]
  · by_cases ht : GUESTS_FLUSH_THRESHOLD
        ≤ (st.allGuestsData ++ dedupNewRows st.allGuestsData rows).length
    · refine Or.inr (Or.inr ?_)
      simp only [accumulateGuests]
      rw [if_neg he, if_pos ht]
    · refine Or.inr (Or.inl ?_)
      simp only [accumulateGuests]
      rw [if_neg he, if_neg ht]

theorem accumulateGuests_failedEvents (w : Bool) (st : SyncState) (rows : List Row) :
    (accumulateGuests w st rows).1.failedEvents = st.failedEvents := by
  rcases accumulateGuests_cases w st rows with h | h | h
  · simp [h]
  · simp [h]
  · rw [h]
    exact flushM_failedEvents _ [] w

theorem accumulateGuests_chain (st : SyncState) (rows : List Row) :
    opsChain st.guestsSheetInitialized (accumulateGuests true st rows).2.1
      ((accumulateGuests true st rows).1.guestsSheetInitialized) := by
  rcases accumulateGuests_cases true st rows with h | h | h
  · simp [h, opsChain]
  · simp [h, opsChain]
  · rw [h]
    exact flushM_chain
      { st with allGuestsData := st.allGuestsData ++ dedupNewRows st.allGuestsData rows } []

theorem processEventGuests_failedEvents (env : Env) (w : Bool) (st : SyncState)
    (eventId : String) :
    (processEventGuests env w st eventId).1.failedEvents = st.failedEvents := by
  rcases processEventGuests_cases env w st eventId with
    h | h | ⟨rows, gs, resp, h⟩ | ⟨rows, h⟩
  · simp [h]
  · simp [h]
  · rw [h]
    show (advanceCursor (accumulateGuests w st rows).1 eventId gs resp).failedEvents
        = st.failedEvents
    rw [advanceCursor_failedEvents]
    exact accumulateGuests_failedEvents w st rows
  · rw [h]
    exact accumulateGuests_failedEvents w st rows

theorem processEventGuests_chain (env : Env) (st : SyncState) (eventId : String) :
    opsChain st.guestsSheetInitialized (processEventGuests env true st eventId).2.1
      ((processEventGuests env true st eventId).1.guestsSheetInitialized) := by
  rcases processEventGuests_cases env true st eventId with
    h | h | ⟨rows, gs, resp, h⟩ | ⟨rows, h⟩
  · simp [h, opsChain]
  · simp [h, opsChain]
  · rw [h]
    show opsChain st.guestsSheetInitialized (accumulateGuests true st rows).2.1
      ((advanceCursor (accumulateGuests true st rows).1 eventId gs resp).guestsSheetInitialized)
    rw [advanceCursor_init]
    exact accumulateGuests_chain st rows
  · rw [h]
    exact accumulateGuests_chain st rows

theorem runBatchItem_failedEvents (env : Env) (w : Bool) (stage : Stage)
    (s : SyncState) (ops : List SinkOp) (e : String) :
    ∃ t, (runBatchItem env w stage ((s, ops) : SyncState × List SinkOp) e).1.failedEvents
      = s.failedEvents ++ t := by
  unfold runBatchItem
  cases stage
  case details =>
    cases hdet : env.eventDetail e with
    | none => exact ⟨[e], by simp [processEventDetails, hdet]⟩
    | some nm => exact ⟨[], by simp [processEventDetails, hdet]⟩
  case guests =>
    by_cases hok : (processEventGuests env w s e).2.2 = true
    · exact ⟨[], by simp [hok, processEventGuests_failedEvents]⟩
    · exact ⟨[e], by simp [hok, processEventGuests_failedEvents]⟩
  case events => exact ⟨[], by simp⟩
  case completed => exact ⟨[], by simp⟩

theorem runBatchItem_chain (env : Env) (stage : Stage) (s : SyncState) (e : String) :
    opsChain s.guestsSheetInitialized
      (runBatchItem env true stage ((s, []) : SyncState × List SinkOp) e).2
      ((runBatchItem env true stage ((s, []) : SyncState × List SinkOp) e).1.guestsSheetInitialized) := by
  unfold runBatchItem
  cases stage
  case details =>
    cases hdet : env.eventDetail e with
    | none => simp [processEventDetails, hdet, opsChain]
    | some nm => simp [processEventDetails, hdet, opsChain]
  case guests =>
    have hch := processEventGuests_chain env s e
    by_cases hok : (processEventGuests env true s e).2.2 = true
    · simpa [hok] using hch
    · simpa [hok] using hch
  case events => simp [opsChain]
  case completed => simp [opsChain]

theorem processBatch_failedEvents (env : Env) (w : Bool) (st : SyncState) (stage : Stage) :
    ∃ t, (processBatch env w st stage).1.failedEvents = st.failedEvents ++ t := by
  unfold processBatch
  cases hd : st.pendingEvents.drop st.lastProcessedIndex with
  | nil =>
    refine ⟨[], ?_⟩
    simp only [hd, List.take_nil, List.foldl_nil]
    split <;> simp
  | cons e tl =>
    have hb : (st.pendingEvents.drop st.lastProcessedIndex).take BATCH_SIZE = [e] := by
      rw [hd]
      rfl
    simp only [hb, List.foldl_cons, List.foldl_nil]
    obtain ⟨t, ht⟩ := runBatchItem_failedEvents env w stage st [] e
    refine ⟨t, ?_⟩
    split <;> simpa using ht

theorem processBatch_chain (env : Env) (st : SyncState) (stage : Stage) :
    opsChain st.guestsSheetInitialized (processBatch env true st stage).2
      ((processBatch env true st stage).1.guestsSheetInitialized) := by
  unfold processBatch
  cases hd : st.pendingEvents.drop st.lastProcessedIndex with
  | nil =>
    simp only [hd, List.take_nil, List.foldl_nil]
    split <;> simp [opsChain]
  | cons e tl =>
    have hb : (st.pendingEvents.drop st.lastProcessedIndex).take BATCH_SIZE = [e] := by
      rw [hd]
      rfl
    simp only [hb, List.foldl_cons, List.foldl_nil]
    have hrb := runBatchItem_chain env stage st e
    split
    · simpa using hrb
    · exact hrb

theorem processPendingEvents_failedEvents (env : Env) (w : Bool) (st : SyncState) :
    ∃ t, (processPendingEvents env w st).1.failedEvents = st.failedEvents ++ t := by
  unfold processPendingEvents
  by_cases hlen : st.pendingEvents.length ≤ st.lastProcessedIndex
  · simp only [hlen, if_true]
    cases hst : st.currentStage with
    | events => exact ⟨[], by simp⟩
    | details => exact ⟨[], by simp⟩
    | guests =>
      by_cases hok : (flushGuestsBufferM st [] w).2.2 = true
      · exact ⟨[], by simp [flushGuestsBuffer, hok, flushM_failedEvents]⟩
      · exact ⟨[], by simp [flushGuestsBuffer, hok, flushM_failedEvents]⟩
    | completed => exact processBatch_failedEvents env w st Stage.completed
  · simpa [hlen] using processBatch_failedEvents env w st st.currentStage

theorem processPendingEvents_chain (env : Env) (st : SyncState) :
    opsChain st.guestsSheetInitialized (processPendingEvents env true st).2.1
      ((processPendingEvents env true st).1.guestsSheetInitialized) := by
  unfold processPendingEvents
  by_cases hlen : st.pendingEvents.length ≤ st.lastProcessedIndex
  · simp only [hlen, if_true]
    cases hst : st.currentStage with
    | events => simp [opsChain]
    | details => simp [opsChain]
    | guests =>
      have hch := flushM_chain st ([] : List Row)
      simpa [flushGuestsBuffer, flushM_ok_flag] using hch
    | completed => exact processBatch_chain env st Stage.completed
  · simpa [hlen] using processBatch_chain env st st.currentStage

theorem opsChain_append (ops1 : List SinkOp) : ∀ (b b1 b2 : Bool) (ops2 : List SinkOp),
    opsChain b ops1 b1 → opsChain b1 ops2 b2 → opsChain b (ops1 ++ ops2) b2 := by
  induction ops1 with
  | nil =>
    intro b b1 b2 ops2 h1 h2
    have hb : b1 = b := h1
    subst hb
    simpa using h2
  | cons o rest ih =>
    intro b b1 b2 ops2 h1 h2
    obtain ⟨hs, ha, hr⟩ := h1
    exact ⟨hs, ha, ih true b1 b2 ops2 hr h2⟩

theorem opsChain_true_all (ops : List SinkOp) : ∀ b2 : Bool, opsChain true ops b2 →
    (∀ p ∈ ops, p.append = true) ∧ b2 = true := by
  induction ops with
  | nil =>
    intro b2 h
    exact ⟨by simp, h⟩
  | cons o rest ih =>
    intro b2 h
    obtain ⟨hs, ha, hr⟩ := h
    obtain ⟨hall, hb⟩ := ih b2 hr
    refine ⟨?_, hb⟩
    intro p hp
    rcases List.mem_cons.mp hp with h1 | h2
    · rw [h1]
      exact ha
    · exact hall p h2

theorem countP_append_false_zero (ops : List SinkOp)
    (h : ∀ p ∈ ops, p.append = true) :
    ops.countP (fun p => p.append == false) = 0 := by
  rw [List.countP_eq_zero]
  intro p hp
  simp [h p hp]

theorem driveN_chain (env : Env) (n : Nat) : ∀ st : SyncState,
    opsChain st.guestsSheetInitialized (driveN env (fun _ => true) n st).2
      ((driveN env (fun _ => true) n st).1.guestsSheetInitialized) := by
  induction n with
  | zero =>
    intro st
    simp [driveN, opsChain]
  | succ n ih =>
    intro st
    simp only [driveN]
    exact opsChain_append _ _ _ _ _ (processPendingEvents_chain env st)
      (ih (processPendingEvents env true st).1)

set_option maxRecDepth 100000 in
/-- Counterexample to C1 as stated: in one sync run over events `e1` and `e2`,
guest id `"0"` appears in two different pages (once in `e1`'s 500-guest page,
once in `e2`'s page); because the 500-guest page triggers a threshold flush
that empties the buffer, the dedup filter no longer knows about id `"0"`, and
the rows written to the guest sink by `flushGuestsBuffer` over the whole run
(which ends completed) contain id `"0"` twice, not exactly once. -/
theorem dedup_across_flush_counterexample :
    pageE1C1.entries.countP (fun g => g.api_id == "0") = 1
  ∧ pageE2C1.entries.countP (fun g => g.api_id == "0") = 1
  ∧ (driveN envC1 (fun _ => true) 6 st0Run).1.currentStage = Stage.completed
  ∧ countId (opsRows (driveN envC1 (fun _ => true) 6 st0Run).2) "0" = 2
  ∧ (2 : Nat) ≠ 1 :=
  ⟨by decide, by decide, by decide, by decide, by decide⟩

/-- Counterexample to C4 as stated: in a run over the single event `e1` whose
final flush fails once before succeeding on the retry (the fourth
`processPendingEvents` invocation's sink write fails), the guest destination's
clear-and-overwrite write is invoked twice — the failed attempt leaves
`guestsSheetInitialized` false, so the retried flush is again an overwrite —
although the run flushes guest rows and ends completed. -/
theorem sink_write_once_counterexample :
    ((driveN envC4w (fun k => k != 3) 5
        (queueAllEventsState cleanupState ["e1"] none false none none 0)).2.countP
      (fun p => p.append == false)) = 2
  ∧ (driveN envC4w (fun k => k != 3) 5
        (queueAllEventsState cleanupState ["e1"] none false none none 0)).1.currentStage
      = Stage.completed
  ∧ (2 : Nat) ≠ 1 :=
  ⟨by decide, by decide, by decide⟩

/-- C4 as amended: across one full sync run started from the state
`queueAllEvents` persists (which resets the guest buffer and
`guestsSheetInitialized`), driven by any number of `processPendingEvents`
invocations *in which every sink write succeeds*: if at least one guest-sheet
write happens, then the very first one is the single clear-and-overwrite write
(`append = false`), every subsequent guest write is an append, the overwrite
count over the whole trace is exactly one, and `guestsSheetInitialized` ends
up true. -/
theorem sink_write_once (stPrev : SyncState) (eventIds : List String)
    (fc : Option String) (fh : Bool) (af bf : Option String) (now : Nat)
    (env : Env) (n : Nat)
    (h : (driveN env (fun _ => true) n
            (queueAllEventsState stPrev eventIds fc fh af bf now)).2 ≠ []) :
    ∃ o rest,
      (driveN env (fun _ => true) n
          (queueAllEventsState stPrev eventIds fc fh af bf now)).2 = o :: rest
      ∧ o.sheet = "Guests"
      ∧ o.append = false
      ∧ (∀ p ∈ rest, p.append = true)
      ∧ ((driveN env (fun _ => true) n
            (queueAllEventsState stPrev eventIds fc fh af bf now)).2.countP
          (fun p => p.append == false)) = 1
      ∧ (driveN env (fun _ => true) n
          (queueAllEventsState stPrev eventIds fc fh af bf now)).1.guestsSheetInitialized
          = true := by
  have hinit : (queueAllEventsState stPrev eventIds fc fh af bf now).guestsSheetInitialized
      = false := rfl
  have hchain := driveN_chain env n (queueAllEventsState stPrev eventIds fc fh af bf now)
  rw [hinit] at hchain
  cases hops : (driveN env (fun _ => true) n
      (queueAllEventsState stPrev eventIds fc fh af bf now)).2 with
  | nil => exact absurd hops h
  | cons o rest =>
    rw [hops] at hchain
    obtain ⟨hs, ha, hr⟩ := hchain
    obtain ⟨hall, hb2⟩ := opsChain_true_all rest _ hr
    refine ⟨o, rest, rfl, hs, ha, hall, ?_, hb2⟩
    rw [List.countP_cons, countP_append_false_zero rest hall, ha]
    simp

/-- Witness for C4: a run over the single event `e1` with one guest produces a
non-empty trace whose only write is the overwrite. -/
theorem sink_write_once_witness :
    (driveN envC4w (fun _ => true) 4
        (queueAllEventsState cleanupState ["e1"] none false none none 0)).2 ≠ []
  ∧ ∃ o rest,
      (driveN envC4w (fun _ => true) 4
          (queueAllEventsState cleanupState ["e1"] none false none none 0)).2 = o :: rest
      ∧ o.sheet = "Guests"
      ∧ o.append = false
      ∧ (∀ p ∈ rest, p.append = true)
      ∧ ((driveN envC4w (fun _ => true) 4
            (queueAllEventsState cleanupState ["e1"] none false none none 0)).2.countP
          (fun p => p.append == false)) = 1
      ∧ (driveN envC4w (fun _ => true) 4
          (queueAllEventsState cleanupState ["e1"] none false none none 0)).1.guestsSheetInitialized
          = true :=
  ⟨by decide, sink_write_once cleanupState ["e1"] none false none none 0 envC4w 4 (by decide)⟩

/-- C10: every modelled operation of the sync service other than `resetSync`
and `cleanup` only appends to the persisted `failedEvents` list — after any
single operation the previous list is a prefix of the new one (witnessed by an
appended tail) — while `resetSync` and `cleanup`, the only operations that
shrink it, set it to the empty list. -/
theorem failedEvents_append_only :
    (∀ (env : Env) (w : Bool) (st : SyncState),
      ∃ t, (processPendingEvents env w st).1.failedEvents = st.failedEvents ++ t)
  ∧ (∀ st : SyncState, (stopSync st).1.failedEvents = st.failedEvents)
  ∧ (∀ (st : SyncState) (mw : List Row) (w : Bool),
      (flushGuestsBufferM st mw w).1.failedEvents = st.failedEvents)
  ∧ (∀ (st : SyncState) (ids : List String) (fc : Option String) (fh : Bool)
        (af bf : Option String) (now : Nat),
      (queueAllEventsState st ids fc fh af bf now).failedEvents = st.failedEvents)
  ∧ (∀ (st : SyncState) (ids : List String) (rc : Option String) (rh : Bool) (now : Nat),
      (fetchNextBatchState st ids rc rh now).failedEvents = st.failedEvents)
  ∧ (∀ st : SyncState, (resetSync st).failedEvents = [])
  ∧ (∀ st : SyncState, (cleanup st).failedEvents = []) := by
  refine ⟨processPendingEvents_failedEvents, fun st => rfl, flushM_failedEvents,
    fun st ids fc fh af bf now => rfl, ?_, fun st => rfl, fun st => rfl⟩
  intro st ids rc rh now
  unfold fetchNextBatchState
  split <;> rfl

end SuiEvents
